import Mathlib

/-!
Shallow embedding of the DMA core of the lpc8xx-hal repository
(src/dma/channels.rs, src/dma/buffer.rs) and proofs about it.

Machine addresses and register values are modelled as `Nat`; the 32-bit
channel flag `0x1 << INDEX` of type `u32` is taken modulo `2 ^ 32`.
A fallible computation (a Rust panic: a failed `assert!`, an arithmetic
underflow of `usize` subtraction, an explicit `panic!`, an `unwrap` of
`None`) is an `Except Panic` value.
-/

/-- The ways the modelled Rust code can panic. -/
inductive Panic where
  /-- A failed `assert!` (the `is_valid` checks at the top of
  `start_transfer`). -/
  | assertFailed : Panic
  /-- Arithmetic underflow of `usize` subtraction (`self.len() - 1`
  in `buffer.rs`). -/
  | underflow : Panic
  /-- The `panic!("Unsupported transfer type")` in `start_transfer`. -/
  | unsupportedTransfer : Panic
  /-- `Option::unwrap` on `None` (descriptor iterator exhausted in
  `Channels::new`). -/
  | unwrapNone : Panic
deriving DecidableEq, Repr

/-- The source-increment variants of the XFERCFG register
(`pac::dma0::channel::xfercfg::SRCINC_A`). -/
inductive SRCINC_A where
  | NO_INCREMENT : SRCINC_A
  | WIDTH_X_1 : SRCINC_A
  | WIDTH_X_2 : SRCINC_A
  | WIDTH_X_4 : SRCINC_A
deriving DecidableEq, Repr

/-- The destination-increment variants of the XFERCFG register
(`pac::dma0::channel::xfercfg::DSTINC_A`). -/
inductive DSTINC_A where
  | NO_INCREMENT : DSTINC_A
  | WIDTH_X_1 : DSTINC_A
  | WIDTH_X_2 : DSTINC_A
  | WIDTH_X_4 : DSTINC_A
deriving DecidableEq, Repr

/-- The transfer-width variants of the XFERCFG register. -/
inductive WIDTH_A where
  | BIT_8 : WIDTH_A
  | BIT_16 : WIDTH_A
  | BIT_32 : WIDTH_A
deriving DecidableEq, Repr

/-- The value written to a channel's CFG register
(user manual section 12.6.16): `periphreqen`, `hwtrigen`, `chpriority`. -/
structure CFGVal where
  periphreqen : Bool
  hwtrigen : Bool
  chpriority : Nat
deriving DecidableEq, Repr

/-- The value written to a channel's XFERCFG register
(user manual section 12.6.18). -/
structure XFERCFGVal where
  cfgvalid : Bool
  reload : Bool
  swtrig : Bool
  clrtrig : Bool
  setinta : Bool
  setintb : Bool
  width : WIDTH_A
  srcinc : SRCINC_A
  dstinc : DSTINC_A
  xfercount : Nat
deriving DecidableEq, Repr

/-- One observable hardware-facing action of `start_transfer`: the
`compiler_fence`, a write to a channel-dedicated register, a write to a
field of the channel's descriptor slot, or a write to one of the shared
registers (ENABLESET0, SETTRIG0). -/
inductive Event where
  /-- `compiler_fence(Ordering::SeqCst)` -/
  | fence : Event
  /-- `self.cfg.write(...)` on channel `ch` -/
  | writeCfg (ch : Nat) (v : CFGVal) : Event
  /-- `self.xfercfg.write(...)` on channel `ch` -/
  | writeXfercfg (ch : Nat) (v : XFERCFGVal) : Event
  /-- `self.descriptor.source_end = addr` for channel `ch` -/
  | writeDescSrcEnd (ch : Nat) (addr : Nat) : Event
  /-- `self.descriptor.dest_end = addr` for channel `ch` -/
  | writeDescDestEnd (ch : Nat) (addr : Nat) : Event
  /-- `self.enableset0.write(|w| w.ena().bits(v))` -/
  | writeEnableSet (v : Nat) : Event
  /-- `self.settrig0.write(|w| w.trig().bits(v))` -/
  | writeSetTrig (v : Nat) : Event
deriving DecidableEq, Repr

instance {ε α : Type} [DecidableEq ε] [DecidableEq α] :
    DecidableEq (Except ε α) := fun x y =>
  match x, y with
  | Except.error a, Except.error b =>
    if h : a = b then Decidable.isTrue (by rw [h])
    else Decidable.isFalse (by simp [h])
  | Except.error _, Except.ok _ => Decidable.isFalse (by simp)
  | Except.ok _, Except.error _ => Decidable.isFalse (by simp)
  | Except.ok a, Except.ok b =>
    if h : a = b then Decidable.isTrue (by rw [h])
    else Decidable.isFalse (by simp [h])

/-- A `Source` endpoint as `start_transfer` consumes it: the results of
the five trait methods.  `transfer_count` and `end_addr` are fallible
computations, evaluated only where the Rust code calls them, so that a
panicking method body (such as the `len - 1` underflow of the static-slice
implementation on an empty slice) panics exactly where the code would. -/
structure SourceEp where
  is_valid : Bool
  is_empty : Bool
  increment : SRCINC_A
  transfer_count : Except Panic (Option Nat)
  end_addr : Except Panic Nat
deriving DecidableEq, Repr

/-- A `Dest` endpoint as `start_transfer` consumes it. -/
structure DestEp where
  is_valid : Bool
  is_full : Bool
  increment : DSTINC_A
  transfer_count : Except Panic (Option Nat)
  end_addr : Except Panic Nat
deriving DecidableEq, Repr

/-- The value returned by `Transfer::new(self, source, dest)`: it owns the
channel and both endpoints. -/
structure Transfer where
  channel : Nat
  source : SourceEp
  dest : DestEp
deriving DecidableEq, Repr

/-- `ChannelTrait::FLAG = 0x1 << Self::INDEX` as a `u32`. -/
def FLAG (ch : Nat) : Nat := (1 <<< ch) % 2 ^ 32

/-- The CFG value written by `start_transfer`: `periphreqen().enabled()`,
`hwtrigen().disabled()`, `chpriority().bits(0)`. -/
def cfgWritten : CFGVal :=
  { periphreqen := true, hwtrigen := false, chpriority := 0 }

/-- The XFERCFG value written by `start_transfer`, given the endpoints'
increment modes and the transfer count. -/
def xfercfgWritten (srcinc : SRCINC_A) (dstinc : DSTINC_A)
    (transfer_count : Nat) : XFERCFGVal :=
  { cfgvalid := true, reload := false, swtrig := false, clrtrig := false,
    setinta := false, setintb := false, width := WIDTH_A.BIT_8,
    srcinc := srcinc, dstinc := dstinc, xfercount := transfer_count }

/-- The register-programming tail of `Channel::start_transfer` (reached
only when neither the asserts, the early return, nor the count match
diverted control): CFG write, XFERCFG write, descriptor source-end and
dest-end writes, shared enable write, shared trigger write.  `t0` is the
trace so far (the fence). -/
def startTransferProgram (ch : Nat) (source : SourceEp) (dest : DestEp)
    (t0 : List Event) (tc : Nat) : List Event × Except Panic Transfer :=
  let t1 := t0 ++ [Event.writeCfg ch cfgWritten,
    Event.writeXfercfg ch (xfercfgWritten source.increment dest.increment tc)]
  match source.end_addr with
  | Except.error p => (t1, Except.error p)
  | Except.ok srcEnd =>
    let t2 := t1 ++ [Event.writeDescSrcEnd ch srcEnd]
    match dest.end_addr with
    | Except.error p => (t2, Except.error p)
    | Except.ok dstEnd =>
      (t2 ++ [Event.writeDescDestEnd ch dstEnd,
        Event.writeEnableSet (FLAG ch), Event.writeSetTrig (FLAG ch)],
       Except.ok (Transfer.mk ch source dest))

/-- `Channel::start_transfer` from `src/dma/channels.rs`, for a channel of
index `ch` in the `Enabled` state.  Returns the ordered list of
hardware-facing events performed, paired with the returned `Transfer` or
the panic.  A panic carries the events performed before it. -/
def start_transfer (ch : Nat) (source : SourceEp) (dest : DestEp) :
    List Event × Except Panic Transfer :=
  if source.is_valid = false then ([], Except.error Panic.assertFailed)
  else if dest.is_valid = false then ([], Except.error Panic.assertFailed)
  else
    -- compiler_fence(Ordering::SeqCst)
    let t0 : List Event := [Event.fence]
    -- early return that prevents the count-minus-one underflow
    if source.is_empty || dest.is_full then
      (t0, Except.ok (Transfer.mk ch source dest))
    else
      match source.transfer_count with
      | Except.error p => (t0, Except.error p)
      | Except.ok source_count =>
        match dest.transfer_count with
        | Except.error p => (t0, Except.error p)
        | Except.ok dest_count =>
          match source_count, dest_count with
          | some tc, none => startTransferProgram ch source dest t0 tc
          | none, some tc => startTransferProgram ch source dest t0 tc
          | _, _ => (t0, Except.error Panic.unsupportedTransfer)

/-- Rust `usize` subtraction: panics with an underflow on `a < b`. -/
def usizeSub (a b : Nat) : Except Panic Nat :=
  if a < b then Except.error Panic.underflow else Except.ok (a - b)

/-- Modelled from the spec: the `Source` trait's validity check for a
static memory region is in `src/dma/transfer.rs`, which is not among the
provided sources.  The spec: "both endpoints must be within the hardware's
representable single-transfer length — a single DMA operation is limited
to a fixed maximum unit count (observed bound: 1024 units); exceeding it
is rejected". -/
def sliceIsValid (len : Nat) : Bool := len ≤ 1024

/-- The `Source` implementation for `&'static [u8]` from
`src/dma/buffer.rs`, for a slice with base address `base` and length
`len`: `is_empty` is `len == 0`, the increment mode is `WIDTH_X_1`,
`transfer_count` is `len - 1` (a `usize` subtraction that underflows on an
empty slice), and `end_addr` is `base + transfer_count`.  The count
reaches `start_transfer` as `Some` (the memory side is the counted side);
`is_valid` is [[sliceIsValid]], modelled from the spec. -/
def sliceSource (base len : Nat) : SourceEp :=
  { is_valid := sliceIsValid len
    is_empty := len == 0
    increment := SRCINC_A.WIDTH_X_1
    transfer_count := Except.map some (usizeSub len 1)
    end_addr := Except.map (fun tc => base + tc) (usizeSub len 1) }

/-- Modelled from the spec: a fixed peripheral-register destination (the
`Dest` implementations live in peripheral code not among the provided
sources): "a fixed peripheral register address (increment mode = do not
increment, no transfer count contributed, end address = the fixed register
address, fullness determined by the peripheral-specific rule)". -/
def peripheralDest (addr : Nat) (full : Bool) : DestEp :=
  { is_valid := true
    is_full := full
    increment := DSTINC_A.NO_INCREMENT
    transfer_count := Except.ok none
    end_addr := Except.ok addr }

/-- The registers and descriptor memory the events act on.  Per-channel
registers and descriptor fields hold `none` until first written.
ENABLESET0 and SETTRIG0 are hardware write-one-to-set registers: writing a
value sets the written bits and leaves all other bits unchanged. -/
structure DmaRegs where
  cfg : Nat → Option CFGVal
  xfercfg : Nat → Option XFERCFGVal
  descSrcEnd : Nat → Option Nat
  descDestEnd : Nat → Option Nat
  enableset : Nat
  settrig : Nat

/-- Apply one event to the register state. -/
def applyEvent (st : DmaRegs) : Event → DmaRegs
  | Event.fence => st
  | Event.writeCfg ch v =>
    { st with cfg := fun k => if k = ch then some v else st.cfg k }
  | Event.writeXfercfg ch v =>
    { st with xfercfg := fun k => if k = ch then some v else st.xfercfg k }
  | Event.writeDescSrcEnd ch a =>
    { st with descSrcEnd := fun k => if k = ch then some a else st.descSrcEnd k }
  | Event.writeDescDestEnd ch a =>
    { st with descDestEnd := fun k => if k = ch then some a else st.descDestEnd k }
  | Event.writeEnableSet v => { st with enableset := st.enableset ||| v }
  | Event.writeSetTrig v => { st with settrig := st.settrig ||| v }

/-- Apply a list of events in order. -/
def applyTrace (st : DmaRegs) (tr : List Event) : DmaRegs :=
  tr.foldl applyEvent st

/-- The reset register state: nothing written, shared registers zero. -/
def initRegs : DmaRegs :=
  { cfg := fun _ => none, xfercfg := fun _ => none,
    descSrcEnd := fun _ => none, descDestEnd := fun _ => none,
    enableset := 0, settrig := 0 }

/-- An event stays inside channel `ch`'s footprint: channel-dedicated
writes name channel `ch`, and shared-register writes carry exactly the
value `FLAG ch`. -/
def eventTouchesOnly (ch : Nat) : Event → Prop
  | Event.fence => True
  | Event.writeCfg k _ => k = ch
  | Event.writeXfercfg k _ => k = ch
  | Event.writeDescSrcEnd k _ => k = ch
  | Event.writeDescDestEnd k _ => k = ch
  | Event.writeEnableSet v => v = FLAG ch
  | Event.writeSetTrig v => v = FLAG ch

instance (ch : Nat) (e : Event) : Decidable (eventTouchesOnly ch e) := by
  cases e <;> simp [eventTouchesOnly] <;> infer_instance

/-- Is the event a register, descriptor or shared write (anything but the
fence)? -/
def Event.isWrite : Event → Bool
  | Event.fence => false
  | _ => true

/-- A channel as `Channels::new` constructs it: constant identity
(`INDEX`, `FLAG`), the `Disabled` initial state (`true` here means
disabled), and the descriptor-table slot it received. -/
structure ChannelInit where
  index : Nat
  flag : Nat
  disabled : Bool
  descriptorSlot : Nat
deriving DecidableEq, Repr

/-- The channel `Channels::new` builds at position `i` of the macro
expansion: `INDEX = i`, `FLAG = 0x1 << i`, state `Disabled`, and the next
descriptor slot, which is slot `i`. -/
def mkChannel (i : Nat) : ChannelInit :=
  { index := i, flag := FLAG i, disabled := true, descriptorSlot := i }

/-- The descriptor-consuming loop of `Channels::new`: build `rem` more
channels starting at index `start`, taking `descriptors.next().unwrap()`
from a table of `tableLen` slots each time; the `unwrap` panics when the
iterator is exhausted. -/
def channelsNewAux (tableLen : Nat) : Nat → Nat → Except Panic (List ChannelInit)
  | _, 0 => Except.ok []
  | start, rem + 1 =>
    if start < tableLen then
      Except.map (fun rest => mkChannel start :: rest)
        (channelsNewAux tableLen (start + 1) rem)
    else Except.error Panic.unwrapNone

/-- `Channels::new` from `src/dma/channels.rs`: one channel per hardware
channel of the chip variant (`numChannels`), constructed in ascending
index order from the descriptor table's iterator. -/
def channelsNew (numChannels tableLen : Nat) : Except Panic (List ChannelInit) :=
  channelsNewAux tableLen 0 numChannels

/-- Channel count of the 82x variant (`channels!` expansion, channels
0 to 17). -/
def numChannels82x : Nat := 18

/-- Channel count of the 845 variant (`channels!` expansion, channels
0 to 24). -/
def numChannels845 : Nat := 25

/-! ## Helper lemmas -/

lemma usizeSub_one_ok (L : Nat) (h : 1 ≤ L) :
    usizeSub L 1 = Except.ok (L - 1) := by
  simp [usizeSub, Nat.not_lt.mpr h]

lemma sliceSource_count_ok (base L : Nat) (h : 1 ≤ L) :
    (sliceSource base L).transfer_count = Except.ok (some (L - 1)) := by
  simp [sliceSource, usizeSub, Nat.not_lt.mpr h, Except.map]

lemma sliceSource_end_addr_ok (base L : Nat) (h : 1 ≤ L) :
    (sliceSource base L).end_addr = Except.ok (base + (L - 1)) := by
  simp [sliceSource, usizeSub, Nat.not_lt.mpr h, Except.map]

lemma FLAG_testBit_self (ch : Nat) (h : ch < 32) :
    (FLAG ch).testBit ch = true := by
  have h1 : (1 : Nat) <<< ch = 2 ^ ch := by
    simp [Nat.shiftLeft_eq]
  have h2 : (2 : Nat) ^ ch < 2 ^ 32 :=
    Nat.pow_lt_pow_right (by norm_num) h
  unfold FLAG
  rw [h1, Nat.mod_eq_of_lt h2]
  exact Nat.testBit_two_pow_self

lemma FLAG_testBit_ne (ch k : Nat) (h : k ≠ ch) :
    (FLAG ch).testBit k = false := by
  have h1 : (1 : Nat) <<< ch = 2 ^ ch := by
    simp [Nat.shiftLeft_eq]
  rcases Nat.lt_or_ge ch 32 with hlt | hge
  · have h2 : (2 : Nat) ^ ch < 2 ^ 32 :=
      Nat.pow_lt_pow_right (by norm_num) hlt
    unfold FLAG
    rw [h1, Nat.mod_eq_of_lt h2]
    exact Nat.testBit_two_pow_of_ne (fun hc => h hc.symm)
  · have h2 : (2 : Nat) ^ 32 ∣ 2 ^ ch := Nat.pow_dvd_pow 2 hge
    have h3 : (2 : Nat) ^ ch % 2 ^ 32 = 0 := by
      omega
    unfold FLAG
    rw [h1, h3]
    exact Nat.zero_testBit k

/-! ## Claim theorems -/

/-- C7: for every static memory-region endpoint (`&'static [u8]`) of
length `L ≥ 1`: `transfer_count() == L - 1`,
`end_addr() == base + (L - 1)`, `is_empty() == (L == 0)`, and the
increment mode is `WIDTH_X_1` (increment by one unit width). -/
theorem C7_slice_source_methods (base L : Nat) (h : 1 ≤ L) :
    (sliceSource base L).transfer_count = Except.ok (some (L - 1)) ∧
    (sliceSource base L).end_addr = Except.ok (base + (L - 1)) ∧
    (sliceSource base L).is_empty = decide (L = 0) ∧
    (sliceSource base L).increment = SRCINC_A.WIDTH_X_1 := by
  refine ⟨sliceSource_count_ok base L h, sliceSource_end_addr_ok base L h, ?_, rfl⟩
  show (L == 0) = decide (L = 0)
  cases L <;> rfl

theorem C7_slice_source_methods_witness :
    (1 ≤ 10 ∧
      (sliceSource 100 10).transfer_count = Except.ok (some 9) ∧
      (sliceSource 100 10).end_addr = Except.ok 109 ∧
      (sliceSource 100 10).is_empty = decide ((10 : Nat) = 0) ∧
      (sliceSource 100 10).increment = SRCINC_A.WIDTH_X_1) :=
  ⟨by decide, C7_slice_source_methods 100 10 (by decide)⟩

/-- C5: when the source is already empty or the destination already full
(and both endpoints pass the validity asserts), `start_transfer` returns a
`Transfer` and the only event is the compiler fence: no write to the CFG
register, the XFERCFG register, the descriptor slot, or the shared
enable/trigger registers. -/
theorem C5_degenerate_no_writes (ch : Nat) (s : SourceEp) (d : DestEp)
    (hs : s.is_valid = true) (hd : d.is_valid = true)
    (hdeg : s.is_empty = true ∨ d.is_full = true) :
    start_transfer ch s d = ([Event.fence], Except.ok (Transfer.mk ch s d)) ∧
    ∀ e ∈ (start_transfer ch s d).1, e.isWrite = false := by
  have hcond : (s.is_empty || d.is_full) = true := by
    rcases hdeg with h | h <;> simp [h]
  constructor
  · simp [start_transfer, hs, hd, hcond]
  · intro e he
    simp [start_transfer, hs, hd, hcond] at he
    simp [he, Event.isWrite]

theorem C5_degenerate_no_writes_witness :
    ((sliceSource 100 0).is_valid = true ∧
      (peripheralDest 500 false).is_valid = true ∧
      start_transfer 3 (sliceSource 100 0) (peripheralDest 500 false) =
        ([Event.fence],
         Except.ok (Transfer.mk 3 (sliceSource 100 0) (peripheralDest 500 false)))) := by
  refine ⟨by decide, by decide, ?_⟩
  exact (C5_degenerate_no_writes 3 (sliceSource 100 0) (peripheralDest 500 false)
    (by decide) (by decide) (Or.inl (by decide))).1

/-- C10: the `is_valid` asserts run before the degenerate-case early
return: with an invalid endpoint (source invalid, or source valid and
destination invalid), `start_transfer` panics on the assert even when the
source is already empty or the destination already full, performing no
event at all. -/
theorem C10_asserts_precede_early_return (ch : Nat) (s : SourceEp) (d : DestEp)
    (hdeg : s.is_empty = true ∨ d.is_full = true)
    (hinv : s.is_valid = false ∨ (s.is_valid = true ∧ d.is_valid = false)) :
    start_transfer ch s d = ([], Except.error Panic.assertFailed) := by
  rcases hinv with h | ⟨h1, h2⟩
  · simp [start_transfer, h]
  · simp [start_transfer, h1, h2]

theorem C10_asserts_precede_early_return_witness :
    ((sliceSource 0 1025).is_empty = true ∨ (peripheralDest 7 true).is_full = true) ∧
    start_transfer 0 (sliceSource 0 1025) (peripheralDest 7 true) =
      ([], Except.error Panic.assertFailed) :=
  ⟨Or.inr (by decide),
   C10_asserts_precede_early_return 0 (sliceSource 0 1025) (peripheralDest 7 true)
     (Or.inr (by decide)) (Or.inl (by decide))⟩

/-- C6: a static-slice source longer than 1024 units fails the `is_valid`
assert, so `start_transfer` panics before performing any event: no
register or descriptor write happens and the transfer is never silently
truncated.  (`is_valid` for the slice is modelled from the spec, as the
`Source` trait lives outside the provided sources.) -/
theorem C6_oversized_panics_before_writes (ch base L : Nat) (d : DestEp)
    (h : 1024 < L) :
    start_transfer ch (sliceSource base L) d = ([], Except.error Panic.assertFailed) := by
  have hv : (sliceSource base L).is_valid = false := by
    simp [sliceSource, sliceIsValid]
    omega
  simp [start_transfer, hv]

theorem C6_oversized_panics_before_writes_witness :
    1024 < 1025 ∧
    start_transfer 0 (sliceSource 0 1025) (peripheralDest 7 false) =
      ([], Except.error Panic.assertFailed) :=
  ⟨by decide, C6_oversized_panics_before_writes 0 0 1025 (peripheralDest 7 false) (by decide)⟩

/-- C4: with valid endpoints, a non-empty source and a not-full
destination, `start_transfer` panics with "Unsupported transfer type"
when both endpoints report a finite transfer count and also when neither
does; and when exactly one endpoint reports a count, that count is the one
written to the XFERCFG register's count field. -/
theorem C4_count_pairing (ch : Nat) (s : SourceEp) (d : DestEp)
    (hs : s.is_valid = true) (hd : d.is_valid = true)
    (hse : s.is_empty = false) (hdf : d.is_full = false) :
    (∀ a b, s.transfer_count = Except.ok (some a) →
      d.transfer_count = Except.ok (some b) →
      (start_transfer ch s d).2 = Except.error Panic.unsupportedTransfer) ∧
    (s.transfer_count = Except.ok none → d.transfer_count = Except.ok none →
      (start_transfer ch s d).2 = Except.error Panic.unsupportedTransfer) ∧
    (∀ a, s.transfer_count = Except.ok (some a) →
      d.transfer_count = Except.ok none →
      Event.writeXfercfg ch (xfercfgWritten s.increment d.increment a) ∈
        (start_transfer ch s d).1) ∧
    (∀ b, s.transfer_count = Except.ok none →
      d.transfer_count = Except.ok (some b) →
      Event.writeXfercfg ch (xfercfgWritten s.increment d.increment b) ∈
        (start_transfer ch s d).1) := by
  have hcond : (s.is_empty || d.is_full) = false := by
    simp [hse, hdf]
  refine ⟨?_, ?_, ?_, ?_⟩
  · intro a b ha hb
    simp [start_transfer, hs, hd, hcond, ha, hb]
  · intro ha hb
    simp [start_transfer, hs, hd, hcond, ha, hb]
  · intro a ha hb
    simp only [start_transfer, hs, hd, hcond, ha, hb]
    cases hse : s.end_addr with
    | error p =>
      simp [startTransferProgram, hse]
    | ok srcEnd =>
      cases hde : d.end_addr with
      | error p => simp [startTransferProgram, hse, hde]
      | ok dstEnd => simp [startTransferProgram, hse, hde]
  · intro b ha hb
    simp only [start_transfer, hs, hd, hcond, ha, hb]
    cases hse : s.end_addr with
    | error p =>
      simp [startTransferProgram, hse]
    | ok srcEnd =>
      cases hde : d.end_addr with
      | error p => simp [startTransferProgram, hse, hde]
      | ok dstEnd => simp [startTransferProgram, hse, hde]

theorem C4_count_pairing_witness :
    (start_transfer 0
      { is_valid := true, is_empty := false, increment := SRCINC_A.WIDTH_X_1,
        transfer_count := Except.ok (some 3), end_addr := Except.ok 103 }
      { is_valid := true, is_full := false, increment := DSTINC_A.WIDTH_X_1,
        transfer_count := Except.ok (some 3), end_addr := Except.ok 203 }).2 =
      Except.error Panic.unsupportedTransfer ∧
    (start_transfer 0
      { is_valid := true, is_empty := false, increment := SRCINC_A.NO_INCREMENT,
        transfer_count := Except.ok none, end_addr := Except.ok 103 }
      { is_valid := true, is_full := false, increment := DSTINC_A.NO_INCREMENT,
        transfer_count := Except.ok none, end_addr := Except.ok 203 }).2 =
      Except.error Panic.unsupportedTransfer ∧
    Event.writeXfercfg 0 (xfercfgWritten SRCINC_A.WIDTH_X_1 DSTINC_A.NO_INCREMENT 9) ∈
      (start_transfer 0 (sliceSource 100 10) (peripheralDest 500 false)).1 :=
  ⟨(C4_count_pairing 0 _ _ rfl rfl rfl rfl).1 3 3 rfl rfl,
   (C4_count_pairing 0 _ _ rfl rfl rfl rfl).2.1 rfl rfl,
   (C4_count_pairing 0 (sliceSource 100 10) (peripheralDest 500 false)
     (by decide) (by decide) (by decide) (by decide)).2.2.1 9 (by decide) (by decide)⟩

/-- C8: with a static-slice source, `start_transfer` never panics with an
arithmetic underflow (provided the destination endpoint's own methods do
not underflow): the `len - 1` subtraction of the slice implementation is
guarded by the emptiness early return, which runs before
`transfer_count()` or `end_addr()` is evaluated. -/
theorem C8_slice_count_never_underflows (ch base len : Nat) (d : DestEp)
    (hd1 : d.transfer_count ≠ Except.error Panic.underflow)
    (hd2 : d.end_addr ≠ Except.error Panic.underflow) :
    (start_transfer ch (sliceSource base len) d).2 ≠ Except.error Panic.underflow := by
  by_cases hsv : (sliceSource base len).is_valid = false
  · simp [start_transfer, hsv]
  · by_cases hdv : d.is_valid = false
    · simp [start_transfer, hsv, hdv]
    · by_cases hlen : len = 0
      · have hempty : ((sliceSource base len).is_empty || d.is_full) = true := by
          simp [sliceSource, hlen]
        simp [start_transfer, hsv, hdv, hempty]
      · have h1 : 1 ≤ len := Nat.one_le_iff_ne_zero.mpr hlen
        by_cases hfull : d.is_full = true
        · have hempty : ((sliceSource base len).is_empty || d.is_full) = true := by
            simp [hfull]
          simp [start_transfer, hsv, hdv, hempty]
        · have hcond : ((sliceSource base len).is_empty || d.is_full) = false := by
            simp [sliceSource, hlen, Bool.eq_false_iff.mpr hfull]
          cases hdc : d.transfer_count with
          | error p =>
            have hp : p ≠ Panic.underflow := by
              intro hp
              exact hd1 (by rw [hdc, hp])
            simp [start_transfer, hsv, hdv, hcond,
              sliceSource_count_ok base len h1, hdc, hp]
          | ok dc =>
            cases dc with
            | some b =>
              simp [start_transfer, hsv, hdv, hcond,
                sliceSource_count_ok base len h1, hdc]
            | none =>
              cases hde : d.end_addr with
              | error p =>
                have hp : p ≠ Panic.underflow := by
                  intro hp
                  exact hd2 (by rw [hde, hp])
                simp [start_transfer, hsv, hdv, hcond,
                  sliceSource_count_ok base len h1, hdc, startTransferProgram,
                  sliceSource_end_addr_ok base len h1, hde, hp]
              | ok dstEnd =>
                simp [start_transfer, hsv, hdv, hcond,
                  sliceSource_count_ok base len h1, hdc, startTransferProgram,
                  sliceSource_end_addr_ok base len h1, hde]

theorem C8_slice_count_never_underflows_witness :
    (peripheralDest 500 false).transfer_count ≠ Except.error Panic.underflow ∧
    (peripheralDest 500 false).end_addr ≠ Except.error Panic.underflow ∧
    (start_transfer 0 (sliceSource 100 0) (peripheralDest 500 false)).2 ≠
      Except.error Panic.underflow :=
  ⟨by decide, by decide,
   C8_slice_count_never_underflows 0 100 0 (peripheralDest 500 false)
     (by decide) (by decide)⟩

/-- C1: starting a transfer on channel `ch` from a non-empty static slice
(base address `base`, length `L`, with `1 ≤ L ≤ 1024`) to a not-full fixed
peripheral destination performs exactly the fence, one CFG write, one
XFERCFG write carrying configuration-valid, reload disabled, no software
trigger, clear-trigger cleared, interrupt-set-A/B no-effect, 8-bit width,
the endpoints' increment modes and count `L - 1`, the descriptor
source-end write `base + (L - 1)`, the descriptor dest-end write, and the
shared enable and trigger writes of value `FLAG ch`; afterwards channel
`ch`'s bit is set in both shared registers. -/
theorem C1_memory_to_peripheral_programming (ch base L addr : Nat)
    (h1 : 1 ≤ L) (h2 : L ≤ 1024) (hch : ch < 32) :
    start_transfer ch (sliceSource base L) (peripheralDest addr false) =
      ([Event.fence, Event.writeCfg ch cfgWritten,
        Event.writeXfercfg ch
          { cfgvalid := true, reload := false, swtrig := false,
            clrtrig := false, setinta := false, setintb := false,
            width := WIDTH_A.BIT_8, srcinc := SRCINC_A.WIDTH_X_1,
            dstinc := DSTINC_A.NO_INCREMENT, xfercount := L - 1 },
        Event.writeDescSrcEnd ch (base + (L - 1)),
        Event.writeDescDestEnd ch addr,
        Event.writeEnableSet (FLAG ch), Event.writeSetTrig (FLAG ch)],
       Except.ok (Transfer.mk ch (sliceSource base L) (peripheralDest addr false))) ∧
    (applyTrace initRegs
        (start_transfer ch (sliceSource base L) (peripheralDest addr false)).1).xfercfg ch =
      some (xfercfgWritten SRCINC_A.WIDTH_X_1 DSTINC_A.NO_INCREMENT (L - 1)) ∧
    (applyTrace initRegs
        (start_transfer ch (sliceSource base L) (peripheralDest addr false)).1).descSrcEnd ch =
      some (base + (L - 1)) ∧
    (applyTrace initRegs
        (start_transfer ch (sliceSource base L) (peripheralDest addr false)).1).enableset.testBit ch =
      true ∧
    (applyTrace initRegs
        (start_transfer ch (sliceSource base L) (peripheralDest addr false)).1).settrig.testBit ch =
      true := by
  have hval : (sliceSource base L).is_valid = true := by
    simp [sliceSource, sliceIsValid]
    omega
  have hcond : ((sliceSource base L).is_empty || (peripheralDest addr false).is_full) = false := by
    simp [sliceSource, peripheralDest]
    omega
  have htr : start_transfer ch (sliceSource base L) (peripheralDest addr false) =
      ([Event.fence, Event.writeCfg ch cfgWritten,
        Event.writeXfercfg ch
          { cfgvalid := true, reload := false, swtrig := false,
            clrtrig := false, setinta := false, setintb := false,
            width := WIDTH_A.BIT_8, srcinc := SRCINC_A.WIDTH_X_1,
            dstinc := DSTINC_A.NO_INCREMENT, xfercount := L - 1 },
        Event.writeDescSrcEnd ch (base + (L - 1)),
        Event.writeDescDestEnd ch addr,
        Event.writeEnableSet (FLAG ch), Event.writeSetTrig (FLAG ch)],
       Except.ok (Transfer.mk ch (sliceSource base L) (peripheralDest addr false))) := by
    simp only [start_transfer, hval, hcond, sliceSource_count_ok base L h1,
      Bool.false_eq_true, if_false]
    simp [peripheralDest, startTransferProgram,
      sliceSource_end_addr_ok base L h1, xfercfgWritten, sliceSource,
      usizeSub_one_ok L h1, Except.map]
  refine ⟨htr, ?_, ?_, ?_, ?_⟩ <;> rw [htr] <;>
    simp [applyTrace, applyEvent, initRegs, xfercfgWritten,
      FLAG_testBit_self ch hch]

theorem C1_memory_to_peripheral_programming_witness :
    (1 ≤ 10 ∧ 10 ≤ 1024 ∧ 2 < 32) ∧
    start_transfer 2 (sliceSource 100 10) (peripheralDest 500 false) =
      ([Event.fence, Event.writeCfg 2 cfgWritten,
        Event.writeXfercfg 2
          { cfgvalid := true, reload := false, swtrig := false,
            clrtrig := false, setinta := false, setintb := false,
            width := WIDTH_A.BIT_8, srcinc := SRCINC_A.WIDTH_X_1,
            dstinc := DSTINC_A.NO_INCREMENT, xfercount := 9 },
        Event.writeDescSrcEnd 2 109, Event.writeDescDestEnd 2 500,
        Event.writeEnableSet (FLAG 2), Event.writeSetTrig (FLAG 2)],
       Except.ok (Transfer.mk 2 (sliceSource 100 10) (peripheralDest 500 false))) :=
  ⟨⟨by decide, by decide, by decide⟩,
   (C1_memory_to_peripheral_programming 2 100 10 500
     (by decide) (by decide) (by decide)).1⟩


lemma startTransferProgram_trace (ch : Nat) (s : SourceEp) (d : DestEp)
    (tc : Nat) :
    (∃ p, s.end_addr = Except.error p ∧
      (startTransferProgram ch s d [Event.fence] tc).1 =
        [Event.fence, Event.writeCfg ch cfgWritten,
         Event.writeXfercfg ch (xfercfgWritten s.increment d.increment tc)]) ∨
    (∃ srcEnd p, s.end_addr = Except.ok srcEnd ∧ d.end_addr = Except.error p ∧
      (startTransferProgram ch s d [Event.fence] tc).1 =
        [Event.fence, Event.writeCfg ch cfgWritten,
         Event.writeXfercfg ch (xfercfgWritten s.increment d.increment tc),
         Event.writeDescSrcEnd ch srcEnd]) ∨
    (∃ srcEnd dstEnd, s.end_addr = Except.ok srcEnd ∧ d.end_addr = Except.ok dstEnd ∧
      (startTransferProgram ch s d [Event.fence] tc).1 =
        [Event.fence, Event.writeCfg ch cfgWritten,
         Event.writeXfercfg ch (xfercfgWritten s.increment d.increment tc),
         Event.writeDescSrcEnd ch srcEnd, Event.writeDescDestEnd ch dstEnd,
         Event.writeEnableSet (FLAG ch), Event.writeSetTrig (FLAG ch)]) := by
  cases hse : s.end_addr with
  | error p =>
    exact Or.inl ⟨p, rfl, by simp [startTransferProgram, hse]⟩
  | ok srcEnd =>
    cases hde : d.end_addr with
    | error p =>
      exact Or.inr (Or.inl ⟨srcEnd, p, rfl, rfl,
        by simp [startTransferProgram, hse, hde]⟩)
    | ok dstEnd =>
      exact Or.inr (Or.inr ⟨srcEnd, dstEnd, rfl, rfl,
        by simp [startTransferProgram, hse, hde]⟩)

/-- C2: in every execution of `start_transfer`, the compiler fence comes
first and the performed events form a prefix of the fixed sequence
fence, CFG write, XFERCFG write, descriptor source-end write, descriptor
dest-end write, shared enable write, shared trigger write — so every
register/memory write that occurs happens in that order, and the barrier
precedes every one of them. -/
theorem C2_write_order (ch : Nat) (s : SourceEp) (d : DestEp) :
    ((start_transfer ch s d).1 = [] ∨
      (start_transfer ch s d).1.head? = some Event.fence) ∧
    ∃ c x a b v rest,
      (start_transfer ch s d).1 ++ rest =
        [Event.fence, Event.writeCfg ch c, Event.writeXfercfg ch x,
         Event.writeDescSrcEnd ch a, Event.writeDescDestEnd ch b,
         Event.writeEnableSet v, Event.writeSetTrig v] := by
  have fromEmpty : (start_transfer ch s d).1 = [] →
      ((start_transfer ch s d).1 = [] ∨
        (start_transfer ch s d).1.head? = some Event.fence) ∧
      ∃ c x a b v rest,
        (start_transfer ch s d).1 ++ rest =
          [Event.fence, Event.writeCfg ch c, Event.writeXfercfg ch x,
           Event.writeDescSrcEnd ch a, Event.writeDescDestEnd ch b,
           Event.writeEnableSet v, Event.writeSetTrig v] := by
    intro htr
    refine ⟨Or.inl htr, cfgWritten, xfercfgWritten s.increment d.increment 0,
      0, 0, FLAG ch,
      [Event.fence, Event.writeCfg ch cfgWritten,
       Event.writeXfercfg ch (xfercfgWritten s.increment d.increment 0),
       Event.writeDescSrcEnd ch 0, Event.writeDescDestEnd ch 0,
       Event.writeEnableSet (FLAG ch), Event.writeSetTrig (FLAG ch)], ?_⟩
    rw [htr]
    rfl
  have fromFence : (start_transfer ch s d).1 = [Event.fence] →
      ((start_transfer ch s d).1 = [] ∨
        (start_transfer ch s d).1.head? = some Event.fence) ∧
      ∃ c x a b v rest,
        (start_transfer ch s d).1 ++ rest =
          [Event.fence, Event.writeCfg ch c, Event.writeXfercfg ch x,
           Event.writeDescSrcEnd ch a, Event.writeDescDestEnd ch b,
           Event.writeEnableSet v, Event.writeSetTrig v] := by
    intro htr
    refine ⟨Or.inr (by rw [htr]; rfl), cfgWritten,
      xfercfgWritten s.increment d.increment 0, 0, 0, FLAG ch,
      [Event.writeCfg ch cfgWritten,
       Event.writeXfercfg ch (xfercfgWritten s.increment d.increment 0),
       Event.writeDescSrcEnd ch 0, Event.writeDescDestEnd ch 0,
       Event.writeEnableSet (FLAG ch), Event.writeSetTrig (FLAG ch)], ?_⟩
    rw [htr]
    rfl
  have fromProg : ∀ tc, (start_transfer ch s d).1 =
      (startTransferProgram ch s d [Event.fence] tc).1 →
      ((start_transfer ch s d).1 = [] ∨
        (start_transfer ch s d).1.head? = some Event.fence) ∧
      ∃ c x a b v rest,
        (start_transfer ch s d).1 ++ rest =
          [Event.fence, Event.writeCfg ch c, Event.writeXfercfg ch x,
           Event.writeDescSrcEnd ch a, Event.writeDescDestEnd ch b,
           Event.writeEnableSet v, Event.writeSetTrig v] := by
    intro tc htr
    rcases startTransferProgram_trace ch s d tc with
      ⟨p, _, hpr⟩ | ⟨srcEnd, p, _, _, hpr⟩ | ⟨srcEnd, dstEnd, _, _, hpr⟩
    · refine ⟨Or.inr (by rw [htr, hpr]; rfl), cfgWritten,
        xfercfgWritten s.increment d.increment tc, 0, 0, FLAG ch,
        [Event.writeDescSrcEnd ch 0, Event.writeDescDestEnd ch 0,
         Event.writeEnableSet (FLAG ch), Event.writeSetTrig (FLAG ch)], ?_⟩
      rw [htr, hpr]
      rfl
    · refine ⟨Or.inr (by rw [htr, hpr]; rfl), cfgWritten,
        xfercfgWritten s.increment d.increment tc, srcEnd, 0, FLAG ch,
        [Event.writeDescDestEnd ch 0,
         Event.writeEnableSet (FLAG ch), Event.writeSetTrig (FLAG ch)], ?_⟩
      rw [htr, hpr]
      rfl
    · refine ⟨Or.inr (by rw [htr, hpr]; rfl), cfgWritten,
        xfercfgWritten s.increment d.increment tc, srcEnd, dstEnd, FLAG ch,
        [], ?_⟩
      rw [htr, hpr]
      rfl
  by_cases hsv : s.is_valid = false
  · exact fromEmpty (by simp [start_transfer, hsv])
  · by_cases hdv : d.is_valid = false
    · exact fromEmpty (by simp [start_transfer, hsv, hdv])
    · by_cases hdeg : (s.is_empty || d.is_full) = true
      · exact fromFence (by simp [start_transfer, hsv, hdv, hdeg])
      · have hcond : (s.is_empty || d.is_full) = false := by
          revert hdeg
          cases (s.is_empty || d.is_full) <;> simp
        cases hsc : s.transfer_count with
        | error p =>
          exact fromFence (by simp [start_transfer, hsv, hdv, hcond, hsc])
        | ok sc =>
          cases hdc : d.transfer_count with
          | error p =>
            exact fromFence (by simp [start_transfer, hsv, hdv, hcond, hsc, hdc])
          | ok dc =>
            cases sc with
            | some a =>
              cases dc with
              | some b =>
                exact fromFence
                  (by simp [start_transfer, hsv, hdv, hcond, hsc, hdc])
              | none =>
                exact fromProg a
                  (by simp [start_transfer, hsv, hdv, hcond, hsc, hdc])
            | none =>
              cases dc with
              | some b =>
                exact fromProg b
                  (by simp [start_transfer, hsv, hdv, hcond, hsc, hdc])
              | none =>
                exact fromFence
                  (by simp [start_transfer, hsv, hdv, hcond, hsc, hdc])

lemma applyEvent_frame (ch : Nat) (e : Event) (he : eventTouchesOnly ch e)
    (st : DmaRegs) (k : Nat) (hk : k ≠ ch) :
    (applyEvent st e).cfg k = st.cfg k ∧
    (applyEvent st e).xfercfg k = st.xfercfg k ∧
    (applyEvent st e).descSrcEnd k = st.descSrcEnd k ∧
    (applyEvent st e).descDestEnd k = st.descDestEnd k ∧
    (applyEvent st e).enableset.testBit k = st.enableset.testBit k ∧
    (applyEvent st e).settrig.testBit k = st.settrig.testBit k := by
  cases e with
  | fence => simp [applyEvent]
  | writeCfg c v =>
    have hc : c = ch := he
    subst hc
    simp [applyEvent, hk]
  | writeXfercfg c v =>
    have hc : c = ch := he
    subst hc
    simp [applyEvent, hk]
  | writeDescSrcEnd c a =>
    have hc : c = ch := he
    subst hc
    simp [applyEvent, hk]
  | writeDescDestEnd c a =>
    have hc : c = ch := he
    subst hc
    simp [applyEvent, hk]
  | writeEnableSet v =>
    have hv : v = FLAG ch := he
    subst hv
    simp [applyEvent, Nat.testBit_or, FLAG_testBit_ne ch k hk]
  | writeSetTrig v =>
    have hv : v = FLAG ch := he
    subst hv
    simp [applyEvent, Nat.testBit_or, FLAG_testBit_ne ch k hk]

lemma applyTrace_frame (ch : Nat) (tr : List Event)
    (h : ∀ e ∈ tr, eventTouchesOnly ch e) (st : DmaRegs) (k : Nat)
    (hk : k ≠ ch) :
    (applyTrace st tr).cfg k = st.cfg k ∧
    (applyTrace st tr).xfercfg k = st.xfercfg k ∧
    (applyTrace st tr).descSrcEnd k = st.descSrcEnd k ∧
    (applyTrace st tr).descDestEnd k = st.descDestEnd k ∧
    (applyTrace st tr).enableset.testBit k = st.enableset.testBit k ∧
    (applyTrace st tr).settrig.testBit k = st.settrig.testBit k := by
  induction tr generalizing st with
  | nil => simp [applyTrace]
  | cons e tl ih =>
    have he : eventTouchesOnly ch e := h e (by simp)
    have htl : ∀ x ∈ tl, eventTouchesOnly ch x := fun x hx => h x (by simp [hx])
    have hstep := applyEvent_frame ch e he st k hk
    have hrest := ih htl (applyEvent st e)
    have htr : applyTrace st (e :: tl) = applyTrace (applyEvent st e) tl := rfl
    rw [htr]
    exact ⟨hrest.1.trans hstep.1,
      hrest.2.1.trans hstep.2.1,
      hrest.2.2.1.trans hstep.2.2.1,
      hrest.2.2.2.1.trans hstep.2.2.2.1,
      hrest.2.2.2.2.1.trans hstep.2.2.2.2.1,
      hrest.2.2.2.2.2.trans hstep.2.2.2.2.2⟩

lemma start_transfer_touches_only (ch : Nat) (s : SourceEp) (d : DestEp) :
    ∀ e ∈ (start_transfer ch s d).1, eventTouchesOnly ch e := by
  have hprog : ∀ tc, ∀ e ∈ (startTransferProgram ch s d [Event.fence] tc).1,
      eventTouchesOnly ch e := by
    intro tc e he
    rcases startTransferProgram_trace ch s d tc with
      ⟨p, _, hpr⟩ | ⟨srcEnd, p, _, _, hpr⟩ | ⟨srcEnd, dstEnd, _, _, hpr⟩
    · rw [hpr] at he
      simp at he
      rcases he with rfl | rfl | rfl <;> simp [eventTouchesOnly]
    · rw [hpr] at he
      simp at he
      rcases he with rfl | rfl | rfl | rfl <;> simp [eventTouchesOnly]
    · rw [hpr] at he
      simp at he
      rcases he with rfl | rfl | rfl | rfl | rfl | rfl | rfl <;>
        simp [eventTouchesOnly]
  by_cases hsv : s.is_valid = false
  · simp [start_transfer, hsv]
  · by_cases hdv : d.is_valid = false
    · simp [start_transfer, hsv, hdv]
    · by_cases hdeg : (s.is_empty || d.is_full) = true
      · intro e he
        simp [start_transfer, hsv, hdv, hdeg] at he
        subst he
        simp [eventTouchesOnly]
      · have hcond : (s.is_empty || d.is_full) = false := by
          revert hdeg
          cases (s.is_empty || d.is_full) <;> simp
        cases hsc : s.transfer_count with
        | error p =>
          intro e he
          simp [start_transfer, hsv, hdv, hcond, hsc] at he
          subst he
          simp [eventTouchesOnly]
        | ok sc =>
          cases hdc : d.transfer_count with
          | error p =>
            intro e he
            simp [start_transfer, hsv, hdv, hcond, hsc, hdc] at he
            subst he
            simp [eventTouchesOnly]
          | ok dc =>
            cases sc with
            | some a =>
              cases dc with
              | some b =>
                intro e he
                simp [start_transfer, hsv, hdv, hcond, hsc, hdc] at he
                subst he
                simp [eventTouchesOnly]
              | none =>
                intro e he
                apply hprog a
                revert he
                simp [start_transfer, hsv, hdv, hcond, hsc, hdc]
            | none =>
              cases dc with
              | some b =>
                intro e he
                apply hprog b
                revert he
                simp [start_transfer, hsv, hdv, hcond, hsc, hdc]
              | none =>
                intro e he
                simp [start_transfer, hsv, hdv, hcond, hsc, hdc] at he
                subst he
                simp [eventTouchesOnly]

/-- C3: `start_transfer` on channel `ch` only touches channel `ch`'s
footprint: every channel-dedicated write (CFG, XFERCFG, descriptor
source-end/dest-end) in its trace names channel `ch`, every shared
enable/trigger write carries exactly the value `FLAG ch = 1 <<< ch`, and
applying the trace to any register state leaves every other channel's
registers, descriptor fields and shared-register bits unchanged. -/
theorem C3_frame_other_channels (ch : Nat) (s : SourceEp) (d : DestEp) :
    (∀ e ∈ (start_transfer ch s d).1, eventTouchesOnly ch e) ∧
    (∀ (st : DmaRegs) (k : Nat), k ≠ ch →
      (applyTrace st (start_transfer ch s d).1).cfg k = st.cfg k ∧
      (applyTrace st (start_transfer ch s d).1).xfercfg k = st.xfercfg k ∧
      (applyTrace st (start_transfer ch s d).1).descSrcEnd k = st.descSrcEnd k ∧
      (applyTrace st (start_transfer ch s d).1).descDestEnd k = st.descDestEnd k ∧
      (applyTrace st (start_transfer ch s d).1).enableset.testBit k =
        st.enableset.testBit k ∧
      (applyTrace st (start_transfer ch s d).1).settrig.testBit k =
        st.settrig.testBit k) :=
  ⟨start_transfer_touches_only ch s d,
   fun st k hk => applyTrace_frame ch (start_transfer ch s d).1
     (start_transfer_touches_only ch s d) st k hk⟩

theorem C3_frame_other_channels_witness :
    eventTouchesOnly 2
      (Event.writeCfg 2 cfgWritten) ∧
    (applyTrace initRegs
        (start_transfer 2 (sliceSource 100 10) (peripheralDest 500 false)).1).cfg 0 =
      initRegs.cfg 0 ∧
    (applyTrace initRegs
        (start_transfer 2 (sliceSource 100 10) (peripheralDest 500 false)).1).enableset.testBit 0 =
      initRegs.enableset.testBit 0 :=
  ⟨(C3_frame_other_channels 2 (sliceSource 100 10) (peripheralDest 500 false)).1
     (Event.writeCfg 2 cfgWritten) (by decide),
   ((C3_frame_other_channels 2 (sliceSource 100 10) (peripheralDest 500 false)).2
     initRegs 0 (by decide)).1,
   ((C3_frame_other_channels 2 (sliceSource 100 10) (peripheralDest 500 false)).2
     initRegs 0 (by decide)).2.2.2.2.1⟩

lemma channelsNewAux_ok (tableLen : Nat) :
    ∀ rem start, start + rem ≤ tableLen →
      channelsNewAux tableLen start rem =
        Except.ok ((List.range rem).map (fun j => mkChannel (start + j))) := by
  intro rem
  induction rem with
  | zero =>
    intro start _
    simp [channelsNewAux]
  | succ k ih =>
    intro start hle
    have hstart : start < tableLen := by omega
    have hrec := ih (start + 1) (by omega)
    simp only [channelsNewAux, hstart, if_pos, hrec, Except.map]
    congr 1
    rw [List.range_succ_eq_map]
    simp only [List.map_cons, List.map_map, Nat.add_zero]
    congr 1
    apply List.map_congr_left
    intro j _
    have harith : start + 1 + j = start + (j + 1) := by omega
    simp [Function.comp, harith]

lemma channelsNewAux_err (tableLen : Nat) :
    ∀ rem start, 1 ≤ rem → tableLen < start + rem →
      channelsNewAux tableLen start rem = Except.error Panic.unwrapNone := by
  intro rem
  induction rem with
  | zero =>
    intro start h1 _
    omega
  | succ k ih =>
    intro start _ hlt
    by_cases hstart : start < tableLen
    · have hk : 1 ≤ k := by omega
      have hrec := ih (start + 1) hk (by omega)
      simp [channelsNewAux, hstart, hrec, Except.map]
    · simp [channelsNewAux, hstart]

/-- C9: `Channels::new` builds one channel per hardware channel in
ascending index order — when the descriptor table has at least as many
slots as the chip variant has channels, it returns the list
`mkChannel 0, mkChannel 1, ...` (channel `i` has `INDEX = i`,
`FLAG = 0x1 <<< i`, starts `Disabled`, and holds descriptor slot `i`) —
and it panics on the iterator's `unwrap` when the descriptor slots run
out before the channels do. -/
theorem C9_channels_new (numChannels tableLen : Nat) :
    (numChannels ≤ tableLen →
      channelsNew numChannels tableLen =
        Except.ok ((List.range numChannels).map mkChannel)) ∧
    (tableLen < numChannels →
      channelsNew numChannels tableLen = Except.error Panic.unwrapNone) := by
  constructor
  · intro h
    have := channelsNewAux_ok tableLen numChannels 0 (by omega)
    simpa [channelsNew] using this
  · intro h
    have h1 : 1 ≤ numChannels := by omega
    have := channelsNewAux_err tableLen numChannels 0 h1 (by omega)
    simpa [channelsNew] using this

theorem C9_channels_new_witness :
    channelsNew numChannels82x numChannels82x =
      Except.ok ((List.range numChannels82x).map mkChannel) ∧
    channelsNew numChannels845 (numChannels845 - 1) =
      Except.error Panic.unwrapNone :=
  ⟨(C9_channels_new numChannels82x numChannels82x).1 (by decide),
   (C9_channels_new numChannels845 (numChannels845 - 1)).2 (by decide)⟩
